/-
Verification of the release-diffing core of the `protoc-exe` redistribution
tool against its natural-language specification.

The Python sources are shallowly embedded:
  * `src/src/redist/release.py` — `Asset`, `Release` (equality, `assets`,
    `version`, `__str__`);
  * `src/src/redist/repo.py` — `GHRepo.releases` (paginated fetch) and
    `GHSrcRepo.releases` (the Differ);
  * `src/src/redist/http.py` — token selection from the environment;
  * `src/redist.py` — `map_platform`, the per-asset step of `build`, and
    `ReproducibleWheelFile.writestr`.

Python regular-expression patterns (`re.Pattern`) are modelled as
`RegularExpression Char` from Mathlib; `pattern.match(s)` (anchored at the
start of `s`, success possibly consuming only a prefix) is modelled by
`reMatch`: some prefix of `s` is in the pattern's language.
-/
import Mathlib

namespace Redist

/-! ### Python string helpers -/

/-- Python `str.removeprefix`: drop `p` from the front of `s` if `s` starts
with `p`, otherwise return `s` unchanged. -/
def removePre (s p : String) : String :=
  if p.toList.isPrefixOf s.toList then String.mk (s.toList.drop p.toList.length) else s

/-- Python `str.removesuffix`: drop `p` from the end of `s` if `s` ends
with `p`, otherwise return `s` unchanged. -/
def removeSuf (s p : String) : String :=
  if p.toList.isSuffixOf s.toList then
    String.mk (s.toList.take (s.toList.length - p.toList.length))
  else s

/-- Python `str.startswith`. -/
def pyStartsWith (s p : String) : Bool := p.toList.isPrefixOf s.toList

/-- Python `str.index` for a single-character needle: position of the first
occurrence, `none` when the needle is absent (Python raises `ValueError`). -/
def firstIdx (c : Char) : List Char → Option Nat
  | [] => none
  | a :: as => if a == c then some 0 else (firstIdx c as).map (· + 1)

/-- Python `pattern.match(s)` as a Boolean: the match is anchored at the
start of `s` and may consume any prefix of `s` (including the empty one),
so it succeeds iff some prefix of `s` is in the pattern's language. -/
def reMatch (p : RegularExpression Char) (s : String) : Bool :=
  s.toList.inits.any (fun pre => p.rmatch pre)

/-! ### Data model (`src/src/redist/release.py`)

A fetched asset record is a JSON object with at least a `name`; the rest of
the record (download URL and the like) is opaque to the core and kept as an
abstract `rest` component so that "different asset data" is expressible. -/

structure AssetData where
  name : String
  rest : String
  deriving DecidableEq

/-- A fetched release record: `tag_name` plus the ordered list of raw asset
records (`data["assets"]`). -/
structure ReleaseData where
  tag_name : String
  assets : List AssetData
  deriving DecidableEq

/-- Model of `Release.__init__`: it stores the whole record; `self.__tag` is
`data["tag_name"]`. -/
structure Release where
  data : ReleaseData
  deriving DecidableEq

def Release.tag (r : Release) : String := r.data.tag_name

/-- Model of `Asset.__init__(data, release)`: it stores the record and the owning
release; `self.__name` is `data["name"]`. -/
structure Asset where
  data : AssetData
  release : Release
  deriving DecidableEq

def Asset.name (a : Asset) : String := a.data.name

/-- Model of `Release.__eq__`: `isinstance(other, Release) and self.__tag == other.__tag`.
Both sides are `Release`s here, so only the tag comparison remains. -/
def releaseEqb (a b : Release) : Bool := a.tag == b.tag

/-- Model of `Asset.__eq__`: `isinstance(other, Asset) and self.__name == other.__name
and self.__release == other.__release`. -/
def assetEqb (a b : Asset) : Bool := a.name == b.name && releaseEqb a.release b.release

/-- Model of `Release.__str__`: it returns `self.__tag`. -/
def pyStrRelease (r : Release) : String := r.tag

/-- Model of `Release.version`: `self.__tag.removeprefix("v")`. -/
def Release.version (r : Release) : String := removePre r.tag "v"

/-- Model of `Release.assets(asset_filter=None)`: build one `Asset` per raw record (in
order); with a filter, keep those whose name the pattern matches. -/
def Release.assetsOp (r : Release) (asset_filter : Option (RegularExpression Char)) :
    List Asset :=
  let assets := r.data.assets.map (fun it => Asset.mk it r)
  match asset_filter with
  | none => assets
  | some f => assets.filter (fun it => reMatch f it.name)

/-! ### The Differ (`src/src/redist/repo.py`) -/

/-- Python `it in ignore` for a release against the varargs tuple, using
`Release.__eq__`. -/
def pyIn (r : Release) (l : List Release) : Bool := l.any (fun x => releaseEqb r x)

/-- Model of `GHSrcRepo.releases(tag_filter=None, *ignore)` applied to the sequence
`src` delivered by the underlying paginated fetch (`super().releases()`).
The Python body also tests `ignore is None`, but `*ignore` is always a
tuple, never `None`, so those two branches are unreachable and only the
two live branches remain. -/
def ghSrcRepoReleases (src : List Release) (tag_filter : Option (RegularExpression Char))
    (ignore : List Release) : List Release :=
  match tag_filter with
  | none => src.filter (fun it => !(pyIn it ignore))
  | some f => src.filter (fun it => !(pyIn it ignore) && reMatch f it.tag)

/-- The Differ semantics as one combined predicate, following the spec's
words: yield iff (tag_filter absent OR it matches the tag) AND the release
is not among `ignore`. -/
def releasesCombined (src : List Release) (tag_filter : Option (RegularExpression Char))
    (ignore : List Release) : List Release :=
  src.filter (fun it =>
    (match tag_filter with
     | none => true
     | some f => reMatch f it.tag) && !(pyIn it ignore))

/-! ### Credential configuration (`src/src/redist/http.py`)

The process environment is a partial map from variable names to values;
`environ.get(k, default)` returns the variable's value whenever the variable
is *set* (even to the empty string), and `default` otherwise. -/

/-- Python `os.environ.get(k, dflt)`. -/
def envGet (env : String → Option String) (k : String) (dflt : String) : String :=
  (env k).getD dflt

/-- Model of the module-level assignment `token = environ.get("GITHUB_TOKEN", environ.get("GH_TOKEN", ""))`. -/
def httpToken (env : String → Option String) : String :=
  envGet env "GITHUB_TOKEN" (envGet env "GH_TOKEN" "")

/-- The module-level conditional
`if token.startswith("ghp_"): SESSION.headers["Authorization"] = f"Bearer {token}"`:
the Authorization header value attached to the session, if any. -/
def authHeader (env : String → Option String) : Option String :=
  if pyStartsWith (httpToken env) "ghp_" then some ("Bearer " ++ httpToken env) else none

/-- The token-selection rule as the spec words it, for comparison with
`httpToken`: the first NON-EMPTY value among the two recognized variables. -/
def specFirstNonEmptyToken (env : String → Option String) : String :=
  if envGet env "GITHUB_TOKEN" "" ≠ "" then envGet env "GITHUB_TOKEN" ""
  else envGet env "GH_TOKEN" ""

/-! ### Paginated release listing (`src/src/redist/repo.py`, `GHRepo.releases`)

The network is a total function from URLs to responses; a response carries
the HTTP status, the page's parsed release records (the JSON body) and the
target of the `rel="next"` link header, if present. -/

structure HttpResponse where
  status : Nat
  body : List ReleaseData
  next : Option String
  deriving DecidableEq

/-- Python `requests.Response.raise_for_status()` raises `HTTPError` exactly for
client-error (4xx) and server-error (5xx) statuses. -/
def isErrStatus (s : Nat) : Bool := 400 ≤ s && s < 600

/-- Successful status in the sense of the spec's "2xx". -/
def is2xx (s : Nat) : Bool := 200 ≤ s && s < 300

/-- The `while True` pagination loop of `GHRepo.releases`, with `fuel`
bounding the number of page fetches (the spec's sequence is finite).
Returns the list of URLs fetched, in order, and either the concatenated
releases of all pages or the status of the response on which
`raise_for_status` raised. Exhausted fuel fetches nothing further. -/
def ghRepoReleasesGo (fetch : String → HttpResponse) :
    Nat → String → List String × Except Nat (List Release)
  | 0, _ => ([], Except.ok [])
  | fuel + 1, url =>
    if isErrStatus (fetch url).status then
      ([url], Except.error (fetch url).status)
    else
      match (fetch url).next with
      | none => ([url], Except.ok ((fetch url).body.map Release.mk))
      | some u =>
        (url :: (ghRepoReleasesGo fetch fuel u).1,
         (ghRepoReleasesGo fetch fuel u).2.map
           (fun rs => (fetch url).body.map Release.mk ++ rs))

/-! ### Build step of `src/redist.py` -/

def EXE_NAME : String := "protoc"

/-- The literal dictionary inside `map_platform`. -/
def PLATFORM_TABLE : List (String × String) :=
  [("linux-aarch_64", "manylinux_2_17_aarch64.manylinux2014_aarch64"),
   ("linux-ppcle_64", "manylinux_2_17_ppc64le.manylinux2014_ppc64le"),
   ("linux-s390_64", "manylinux_2_17_s390x.manylinux2014_s390x"),
   ("linux-x86_32", "manylinux_2_5_i686.manylinux1_i686"),
   ("linux-x86_64", "manylinux_2_5_x86_64.manylinux1_x86_64"),
   ("osx-aarch_64", "macosx_11_0_arm64"),
   ("osx-x86_64", "macosx_10_4_x86_64"),
   ("win32", "win32"),
   ("win64", "win_amd64")]

/-- The asset file name after `map_platform`'s two strips:
`s.removesuffix(".zip").removeprefix(f"{EXE_NAME}-")`. -/
def strippedAssetName (s : String) : String :=
  removePre (removeSuf s ".zip") (EXE_NAME ++ "-")

/-- Model of `map_platform(s)`. Python `s.index("-")` raises `ValueError` when no `"-"`
occurs, modelled as `Except.error ()`; otherwise the identifier after the
first `"-"` is looked up in the dictionary (`dict.get`, `none` on a miss). -/
def map_platform (s : String) : Except Unit (Option String) :=
  match firstIdx '-' (strippedAssetName s).toList with
  | none => Except.error ()
  | some i => Except.ok (PLATFORM_TABLE.lookup ((strippedAssetName s).drop (i + 1)))

/-- What `build` does with one downloaded `*.zip` file name: an uncaught
exception from `map_platform` aborts the command; a `None` platform logs a
warning and `continue`s; otherwise the platform tag is completed and the
asset is repackaged. -/
inductive AssetOutcome where
  | fatalValueError
  | skippedUnknownPlatform
  | built (platformTag : String)
  deriving DecidableEq

def buildAssetStep (name : String) : AssetOutcome :=
  match map_platform name with
  | Except.error _ => AssetOutcome.fatalValueError
  | Except.ok none => AssetOutcome.skippedUnknownPlatform
  | Except.ok (some p) => AssetOutcome.built ("py2.py3-none-" ++ p)

/-! ### Reproducible wheel entries (`src/redist.py`, `ReproducibleWheelFile`) -/

/-- The `ZipInfo` fields this program touches. -/
structure ZipInfo where
  filename : String
  date_time : Nat × Nat × Nat × Nat × Nat × Nat
  create_system : Nat
  compress_type : Nat
  external_attr : Nat
  file_size : Nat
  deriving DecidableEq

/-- Model of `WheelFile.writestr` (the superclass): record the entry in the archive
as given. -/
def wheelFileWritestr (archive : List (ZipInfo × List Nat)) (zi : ZipInfo)
    (data : List Nat) : List (ZipInfo × List Nat) :=
  archive ++ [(zi, data)]

/-- Model of `ReproducibleWheelFile.writestr`: force `create_system` and `date_time`
on the supplied `ZipInfo`, then delegate to the superclass. -/
def reproducibleWritestr (archive : List (ZipInfo × List Nat)) (zi : ZipInfo)
    (data : List Nat) : List (ZipInfo × List Nat) :=
  wheelFileWritestr archive
    { zi with create_system := 3, date_time := (1980, 1, 1, 0, 0, 0) } data

/-! ### Concrete inputs used by witnesses and counterexamples -/

def assetW1 : Asset := ⟨⟨"protoc-21.1-win64.zip", "url1"⟩, ⟨⟨"v21.1", []⟩⟩⟩

def assetW2 : Asset := ⟨⟨"protoc-21.1-win64.zip", "url2"⟩, ⟨⟨"v21.2", []⟩⟩⟩

/-- An environment in which `GITHUB_TOKEN` is set to the empty string while
`GH_TOKEN` holds a token with the recognized prefix. -/
def envC2 : String → Option String := fun k =>
  if k = "GITHUB_TOKEN" then some ""
  else if k = "GH_TOKEN" then some "ghp_abcdefg" else none

/-- A backend whose every response is `304 Not Modified` with an empty page
and no next link: not a success status, yet not a 4xx/5xx either. -/
def fetch304 : String → HttpResponse := fun _ => ⟨304, [], none⟩

/-- A backend whose every response is a `404` client error. -/
def fetch404 : String → HttpResponse := fun _ => ⟨404, [], none⟩

/-! ## Claims -/

/-! #### Helper lemmas -/

theorem reMatch_iff (p : RegularExpression Char) (s : String) :
    reMatch p s = true ↔ ∃ pre, pre <+: s.toList ∧ pre ∈ p.matches' := by
  simp only [reMatch, List.any_eq_true, List.mem_inits,
    RegularExpression.rmatch_iff_matches']


/-- C6: two `Release` values are equal exactly when their tag strings are
equal; the comparison never inspects the asset data, so replacing either
release's asset list by anything else leaves the comparison unchanged. -/
theorem C6_release_eq_iff_tag_eq (r₁ r₂ : Release) (b₁ b₂ : List AssetData) :
    (releaseEqb r₁ r₂ = true ↔ r₁.tag = r₂.tag)
    ∧ releaseEqb ⟨⟨r₁.tag, b₁⟩⟩ ⟨⟨r₂.tag, b₂⟩⟩ = releaseEqb r₁ r₂ :=
  ⟨beq_iff_eq, rfl⟩

/-- C7: assets with the same name compare equal exactly when their owning
releases compare equal; with different release tags they are distinct. -/
theorem C7_asset_eq_iff_release_eq (a₁ a₂ : Asset) (h : a₁.name = a₂.name) :
    (assetEqb a₁ a₂ = true ↔ releaseEqb a₁.release a₂.release = true)
    ∧ (a₁.release.tag ≠ a₂.release.tag → assetEqb a₁ a₂ = false) := by
  constructor
  · simp [assetEqb, h]
  · intro hne
    simp [assetEqb, releaseEqb, hne]

theorem C7_witness : assetEqb assetW1 assetW2 = false :=
  (C7_asset_eq_iff_release_eq assetW1 assetW2 rfl).2 (by decide)

theorem removePre_single (l : List Char) :
    removePre ⟨l⟩ "v" = (match l with
      | 'v' :: rest => String.mk rest
      | _ => (⟨l⟩ : String)) := by
  cases l with
  | nil => rfl
  | cons c cs =>
    by_cases hc : c = 'v'
    · subst hc
      split
      · rename_i rest heq
        cases heq
        simp [removePre, List.isPrefixOf]
      · rename_i hne
        exact absurd rfl (hne cs)
    · have hpre : List.isPrefixOf "v".toList (String.toList ⟨c :: cs⟩) = false := by
        simp [List.isPrefixOf, String.toList, Ne.symm hc]
      rw [removePre, hpre]
      simp only [Bool.false_eq_true, if_false]
      split
      · rename_i rest heq
        cases heq
        exact absurd rfl hc
      · rfl

/-- C8: `str(R)` is `R.tag`, and `R.version` is `R.tag` with one leading
`'v'` removed when present (and only then): `removeprefix` strips a single
occurrence, so `"vv1.2"` becomes `"v1.2"` and `"1.2"` stays `"1.2"`. -/
theorem C8_str_and_version (r : Release) :
    pyStrRelease r = r.tag
    ∧ Release.version r = (match r.tag.toList with
        | 'v' :: rest => String.mk rest
        | _ => r.tag) := by
  refine ⟨rfl, ?_⟩
  obtain ⟨⟨⟨l⟩, bs⟩⟩ := r
  show removePre ⟨l⟩ "v" = _
  exact removePre_single l

/-- C10: every archive entry written through `ReproducibleWheelFile.writestr`
is appended with `create_system` forced to `3` and `date_time` forced to
`(1980, 1, 1, 0, 0, 0)` while the remaining fields and the payload are kept;
consequently the result is unchanged when the caller supplies any other
`create_system` or `date_time`, so the entries do not depend on the build's
wall-clock time. -/
theorem C10_reproducible_writestr (archive : List (ZipInfo × List Nat)) (zi : ZipInfo)
    (data : List Nat) :
    (∃ e, reproducibleWritestr archive zi data = archive ++ [e]
        ∧ e.1.create_system = 3
        ∧ e.1.date_time = (1980, 1, 1, 0, 0, 0)
        ∧ e.1.filename = zi.filename
        ∧ e.1.compress_type = zi.compress_type
        ∧ e.1.external_attr = zi.external_attr
        ∧ e.1.file_size = zi.file_size
        ∧ e.2 = data)
    ∧ (∀ cs dt, reproducibleWritestr archive
          { zi with create_system := cs, date_time := dt } data
        = reproducibleWritestr archive zi data) :=
  ⟨⟨_, rfl, rfl, rfl, rfl, rfl, rfl, rfl, rfl⟩, fun _ _ => rfl⟩

/-- C5: without a filter, `Release.assets` yields one `Asset` per raw record,
in the source order; with a filter it yields exactly those whose name has a
prefix in the pattern's language (Python's anchored `match`, not a substring
search), keeping the order; a release with an empty `assets` collection
yields nothing under any filter. -/
theorem C5_selector (r : Release) (f : RegularExpression Char) (t : String)
    (tf : Option (RegularExpression Char)) :
    Release.assetsOp r none = r.data.assets.map (fun d => Asset.mk d r)
    ∧ (∀ a, a ∈ Release.assetsOp r (some f) ↔
        a ∈ Release.assetsOp r none ∧ ∃ pre, pre <+: a.name.toList ∧ pre ∈ f.matches')
    ∧ (Release.assetsOp r (some f)).Sublist (Release.assetsOp r none)
    ∧ Release.assetsOp ⟨⟨t, []⟩⟩ tf = [] := by
  refine ⟨rfl, ?_, ?_, ?_⟩
  · intro a
    rw [show Release.assetsOp r (some f)
        = (Release.assetsOp r none).filter (fun it => reMatch f it.name) from rfl,
      List.mem_filter, reMatch_iff]
  · exact List.filter_sublist _
  · cases tf <;> simp [Release.assetsOp]

/-- C4: the branching implementation of `GHSrcRepo.releases` is extensionally
the single pass over the source with the one combined predicate
"(tag filter absent or it matches) and not already present", and that
combined pass in turn equals the two predicate stages layered one after the
other. -/
theorem C4_differ_refinement (src : List Release) (tf : Option (RegularExpression Char))
    (ignore : List Release) :
    ghSrcRepoReleases src tf ignore = releasesCombined src tf ignore
    ∧ releasesCombined src tf ignore
        = (src.filter (fun it =>
            match tf with
            | none => true
            | some f => reMatch f it.tag)).filter (fun it => !(pyIn it ignore)) := by
  constructor
  · cases tf with
    | none => simp [ghSrcRepoReleases, releasesCombined]
    | some f =>
      show src.filter _ = src.filter _
      exact List.filter_congr (fun a _ => by rw [Bool.and_comm])
  · rw [List.filter_filter]
    exact List.filter_congr (fun a _ => by rw [Bool.and_comm])

/-- C1: the Differ yields a release iff it came from the source, the tag
filter (when present) matches a prefix of its tag, and no already-present
release has the same tag — equality looks only at tags, so a present release
with different asset data still excludes it; the order of the source is
preserved (the output is a sublist of the source sequence). -/
theorem C1_differ_semantics (src : List Release) (tf : Option (RegularExpression Char))
    (already : List Release) :
    (∀ r, r ∈ ghSrcRepoReleases src tf already ↔
       r ∈ src
       ∧ (∀ f, tf = some f → ∃ pre, pre <+: r.tag.toList ∧ pre ∈ f.matches')
       ∧ (∀ a ∈ already, a.tag ≠ r.tag))
    ∧ (ghSrcRepoReleases src tf already).Sublist src := by
  constructor
  · intro r
    have hin : (!(pyIn r already)) = true ↔ ∀ a ∈ already, a.tag ≠ r.tag := by
      simp only [pyIn, releaseEqb, Bool.not_eq_true', List.any_eq_false, beq_iff_eq]
      exact ⟨fun h a ha e => h a ha e.symm, fun h a ha e => h a ha e.symm⟩
    cases tf with
    | none =>
      rw [show ghSrcRepoReleases src none already
          = src.filter (fun it => !(pyIn it already)) from rfl, List.mem_filter, hin]
      simp
    | some f =>
      rw [show ghSrcRepoReleases src (some f) already
          = src.filter (fun it => !(pyIn it already) && reMatch f it.tag) from rfl,
        List.mem_filter, Bool.and_eq_true, hin, reMatch_iff]
      simp only [Option.some.injEq]
      constructor
      · rintro ⟨hsrc, hnotin, hmatch⟩
        exact ⟨hsrc, fun g hg => hg ▸ hmatch, hnotin⟩
      · rintro ⟨hsrc, hmatch, hnotin⟩
        exact ⟨hsrc, hnotin, hmatch f rfl⟩
  · cases tf <;> exact List.filter_sublist _

/-- C2 counterexample: with `GITHUB_TOKEN` set to the empty string and
`GH_TOKEN` holding a valid token, the first non-empty value among the two
variables is the `GH_TOKEN` one and carries the recognized prefix, yet the
code selects the empty string and attaches no Authorization header —
`environ.get` falls back only when the variable is unset, not when it is
empty. -/
theorem C2_counterexample :
    specFirstNonEmptyToken envC2 = "ghp_abcdefg"
    ∧ pyStartsWith (specFirstNonEmptyToken envC2) "ghp_" = true
    ∧ httpToken envC2 = ""
    ∧ authHeader envC2 = none := by decide

/-- C2 (amended): the credential is the value of `GITHUB_TOKEN` whenever
that variable is set — even to the empty string — and the value of
`GH_TOKEN` (empty if unset) only when `GITHUB_TOKEN` is unset; whatever is
selected is forwarded as `Bearer` only when it starts with `ghp_`, so a set
and empty `GITHUB_TOKEN` means no header regardless of `GH_TOKEN`. -/
theorem C2_amended_token_selection (env : String → Option String) :
    httpToken env = (match env "GITHUB_TOKEN" with
      | some v => v
      | none => envGet env "GH_TOKEN" "")
    ∧ (∀ h, authHeader env = some h →
        pyStartsWith (httpToken env) "ghp_" = true ∧ h = "Bearer " ++ httpToken env)
    ∧ (env "GITHUB_TOKEN" = some "" → authHeader env = none) := by
  refine ⟨?_, ?_, ?_⟩
  · cases henv : env "GITHUB_TOKEN" <;> simp [httpToken, envGet, henv]
  · intro h hh
    rw [authHeader] at hh
    split at hh
    · rename_i hb
      exact ⟨hb, (Option.some.injEq .. ▸ hh).symm⟩
    · cases hh
  · intro hset
    have ht : httpToken env = "" := by simp [httpToken, envGet, hset]
    have hb : pyStartsWith (httpToken env) "ghp_" = false := by rw [ht]; decide
    rw [authHeader, hb]
    rfl

/-- C3 counterexample: the cached file name `protoc.zip` leaves no `"-"` in
the stripped name, so `s.index("-")` inside `map_platform` raises an
uncaught `ValueError` and the `build` command aborts instead of warning. -/
theorem C3_counterexample :
    buildAssetStep "protoc.zip" = AssetOutcome.fatalValueError := by decide

theorem firstIdx_isSome_of_mem {c : Char} {l : List Char} (h : c ∈ l) :
    (firstIdx c l).isSome := by
  induction l with
  | nil => cases h
  | cons a as ih =>
    rw [firstIdx]
    by_cases hac : (a == c) = true
    · simp [hac]
    · rcases List.mem_cons.mp h with he | hm
      · exact absurd (by simp [he]) hac
      · have hs := ih hm
        simp only [hac, Bool.false_eq_true, if_false]
        cases hfi : firstIdx c as with
        | none =>
          rw [hfi] at hs
          cases hs
        | some j => simp

/-- C3 (amended): for a file name whose stripped form (`.zip` suffix and
`protoc-` prefix removed) still contains a `"-"`, platform mapping never
aborts the build: an unrecognized platform identifier yields `None`, which
`build` answers with a logged warning and a skip; only a name without such a
`"-"` makes `map_platform` raise, which is fatal. -/
theorem C3_amended_build_step (name : String)
    (h : '-' ∈ (strippedAssetName name).toList) :
    buildAssetStep name ≠ AssetOutcome.fatalValueError
    ∧ (map_platform name = Except.ok none →
        buildAssetStep name = AssetOutcome.skippedUnknownPlatform) := by
  obtain ⟨i, hi⟩ := Option.isSome_iff_exists.mp (firstIdx_isSome_of_mem h)
  have hmp : map_platform name
      = Except.ok (PLATFORM_TABLE.lookup ((strippedAssetName name).drop (i + 1))) := by
    simp only [map_platform, hi]
  refine ⟨?_, fun hok => by simp only [buildAssetStep, hok]⟩
  simp only [buildAssetStep, hmp]
  cases PLATFORM_TABLE.lookup ((strippedAssetName name).drop (i + 1)) <;> simp

theorem C3_witness :
    buildAssetStep "protoc-21.1-linux-x86_64.zip" ≠ AssetOutcome.fatalValueError :=
  (C3_amended_build_step "protoc-21.1-linux-x86_64.zip" (by decide)).1

/-- C9 counterexample: a non-2xx response need not fail the listing —
`requests.raise_for_status` raises only for 4xx/5xx, so a `304` page is
consumed as if it had succeeded and the listing returns normally. -/
theorem C9_counterexample :
    is2xx 304 = false
    ∧ ghRepoReleasesGo fetch304 1 "page1" = (["page1"], Except.ok []) :=
  ⟨rfl, rfl⟩

/-- C9 (amended): any 4xx or 5xx response while listing releases makes the
listing fail with that response's status; the error is not caught inside the
source — the loop's result is exactly that error — and the failing page is
the last one fetched, so no further page request happens. Statuses outside
400–599 (the non-2xx, non-error ones such as 3xx) do not trigger this. -/
theorem C9_amended_fetch_error (fetch : String → HttpResponse) (fuel : Nat) (url u : String)
    (hmem : u ∈ (ghRepoReleasesGo fetch fuel url).1)
    (herr : isErrStatus (fetch u).status = true) :
    (ghRepoReleasesGo fetch fuel url).2 = Except.error (fetch u).status
    ∧ (ghRepoReleasesGo fetch fuel url).1.getLast? = some u := by
  induction fuel generalizing url with
  | zero => exact absurd hmem (by simp [ghRepoReleasesGo])
  | succ n ih =>
    by_cases hfail : isErrStatus (fetch url).status = true
    · have hred : ghRepoReleasesGo fetch (n + 1) url
          = ([url], Except.error (fetch url).status) := by
        simp [ghRepoReleasesGo, hfail]
      rw [hred] at hmem ⊢
      have he : u = url := by simpa using hmem
      subst he
      exact ⟨rfl, rfl⟩
    · rw [Bool.not_eq_true] at hfail
      cases hnext : (fetch url).next with
      | none =>
        have hred : ghRepoReleasesGo fetch (n + 1) url
            = ([url], Except.ok ((fetch url).body.map Release.mk)) := by
          simp [ghRepoReleasesGo, hfail, hnext]
        rw [hred] at hmem
        have he : u = url := by simpa using hmem
        rw [he, hfail] at herr
        cases herr
      | some nxt =>
        have hred : ghRepoReleasesGo fetch (n + 1) url
            = (url :: (ghRepoReleasesGo fetch n nxt).1,
               (ghRepoReleasesGo fetch n nxt).2.map
                 (fun rs => (fetch url).body.map Release.mk ++ rs)) := by
          simp [ghRepoReleasesGo, hfail, hnext]
        rw [hred] at hmem ⊢
        rcases List.mem_cons.mp hmem with he | hm
        · rw [he, hfail] at herr
          cases herr
        · obtain ⟨h2, hlast⟩ := ih nxt hm
          refine ⟨?_, ?_⟩
          · show ((ghRepoReleasesGo fetch n nxt).2.map _) = _
            rw [h2]
            rfl
          · show (url :: (ghRepoReleasesGo fetch n nxt).1).getLast? = some u
            cases hl : (ghRepoReleasesGo fetch n nxt).1 with
            | nil =>
              rw [hl] at hm
              cases hm
            | cons b bs =>
              rw [List.getLast?_cons_cons]
              rw [hl] at hlast
              exact hlast

theorem C9_witness :
    (ghRepoReleasesGo fetch404 1 "page1").2 = Except.error 404
    ∧ (ghRepoReleasesGo fetch404 1 "page1").1.getLast? = some "page1" := by
  have h := C9_amended_fetch_error fetch404 1 "page1" "page1" (by decide) (by decide)
  exact ⟨h.1, h.2⟩

end Redist
